import Mathlib

/-!
Shallow embedding of `fsrl/utils/exp_util.py` (FSRL experiment utilities).

Python configuration values are modelled by the inductive type `Value`:
scalars (strings, integers, booleans), sequences (lists) and mappings
(dicts, represented as association lists; a Python dict never holds two
entries with the same key, which is the `Nodup` hypothesis appearing in
the theorems about mappings).
-/

inductive Value where
  | str (s : String)
  | int (n : Int)
  | bool (b : Bool)
  | list (vs : List Value)
  | dict (kvs : List (String × Value))

mutual

/-- Structural equality test on values (Python `==` on scalars and lists;
on dicts it coincides with Python `==` whenever entries are in the same
order, which is all the development needs). -/
def valueBEq : Value → Value → Bool
  | .str a, .str b => a == b
  | .int a, .int b => a == b
  | .bool a, .bool b => a == b
  | .list a, .list b => valueListBEq a b
  | .dict a, .dict b => valuePairsBEq a b
  | _, _ => false

def valueListBEq : List Value → List Value → Bool
  | [], [] => true
  | a :: as, b :: bs => valueBEq a b && valueListBEq as bs
  | _, _ => false

def valuePairsBEq : List (String × Value) → List (String × Value) → Bool
  | [], [] => true
  | (k1, v1) :: as, (k2, v2) :: bs => k1 == k2 && valueBEq v1 v2 && valuePairsBEq as bs
  | _, _ => false

end

mutual

theorem valueBEq_iff : ∀ (a b : Value), valueBEq a b = true ↔ a = b
  | .str _, b => by cases b <;> simp [valueBEq]
  | .int _, b => by cases b <;> simp [valueBEq]
  | .bool _, b => by cases b <;> simp [valueBEq]
  | .list vs, b => by
      cases b <;> simp [valueBEq]
      exact valueListBEq_iff vs _
  | .dict kvs, b => by
      cases b <;> simp [valueBEq]
      exact valuePairsBEq_iff kvs _

theorem valueListBEq_iff : ∀ (a b : List Value), valueListBEq a b = true ↔ a = b
  | [], b => by cases b <;> simp [valueListBEq]
  | _ :: _, [] => by simp [valueListBEq]
  | a :: as, b :: bs => by
      simp [valueListBEq, Bool.and_eq_true, valueBEq_iff a b, valueListBEq_iff as bs]

theorem valuePairsBEq_iff : ∀ (a b : List (String × Value)), valuePairsBEq a b = true ↔ a = b
  | [], b => by cases b <;> simp [valuePairsBEq]
  | p :: _, [] => by cases p; simp [valuePairsBEq]
  | (k1, v1) :: as, (k2, v2) :: bs => by
      simp only [valuePairsBEq, Bool.and_eq_true, beq_iff_eq, valueBEq_iff v1 v2,
        valuePairsBEq_iff as bs, List.cons.injEq, Prod.mk.injEq]
      try tauto

end

instance : DecidableEq Value := fun a b =>
  decidable_of_iff (valueBEq a b = true) (valueBEq_iff a b)

/-- `d[k]` lookup in an association list (the first entry whose key is `k`);
a Python dict has at most one entry per key. -/
def assocGet {β : Type} (kvs : List (String × β)) (k : String) : Option β :=
  (kvs.find? (fun p => p.1 == k)).map Prod.snd

/-- Python `sorted` on a list of keys (lexicographic string order). -/
def sortStr (ks : List String) : List String :=
  List.insertionSort (fun a b : String => a ≤ b) ks

/-- Ordering of rendered dict entries by their key, used to model
`sorted(values.keys())` followed by `values[k]` lookups. -/
def keyLe (a b : String × String) : Prop := a.1 ≤ b.1

instance : DecidableRel keyLe := fun a b =>
  inferInstanceAs (Decidable (a.1 ≤ b.1))

instance : IsTotal (String × String) keyLe :=
  ⟨fun a b => le_total a.1 b.1⟩

instance : IsTrans (String × String) keyLe :=
  ⟨fun _ _ _ h1 h2 => le_trans h1 h2⟩

/-- Sort rendered dict entries by key.  With unique keys this is exactly
the `for k in sorted(values.keys()): ... values[k]` loop of Python. -/
def sortPairsStr (l : List (String × String)) : List (String × String) :=
  List.insertionSort keyLe l

/-- The `name += prefix + to_string(...)` loop of `to_string`, where
`prefix = "" if i == 0 else "_"` (`i` is the `enumerate` index). -/
def join_loop : Nat → String → List String → String
  | _, name, [] => name
  | i, name, p :: ps => join_loop (i + 1) (name ++ (if i == 0 then "" else "_") ++ p) ps

mutual

/-- `to_string(values)` of `exp_util.py`: sequences are rendered element by
element in order, dicts are rendered value by value in sorted-key order,
everything else through `str`. -/
def to_string : Value → String
  | .str s => s
  | .int n => toString n
  | .bool b => if b then "True" else "False"
  | .list vs => join_loop 0 "" (render_list vs)
  | .dict kvs => join_loop 0 "" ((sortPairsStr (render_pairs kvs)).map Prod.snd)

/-- Rendering of the elements of a sequence, in order. -/
def render_list : List Value → List String
  | [] => []
  | v :: vs => to_string v :: render_list vs

/-- Rendering of the entries of a dict, keeping the key of each entry so
that the entries can then be arranged in sorted-key order. -/
def render_pairs : List (String × Value) → List (String × String)
  | [] => []
  | (k, v) :: kvs => (k, to_string v) :: render_pairs kvs

end

theorem render_list_eq_map (vs : List Value) : render_list vs = vs.map to_string := by
  induction vs with
  | nil => rfl
  | cons v vs ih => simp [render_list, ih]

theorem render_pairs_eq_map (kvs : List (String × Value)) :
    render_pairs kvs = kvs.map (fun p => (p.1, to_string p.2)) := by
  induction kvs with
  | nil => rfl
  | cons p kvs ih => cases p; simp [render_pairs, ih]

/-- The tail of an underscore join: `"_" ++ p` for every later element. -/
def joinRest : List String → String
  | [] => ""
  | p :: ps => "_" ++ p ++ joinRest ps

theorem join_loop_pos (ps : List String) :
    ∀ (i : Nat) (name : String), i ≠ 0 → join_loop i name ps = name ++ joinRest ps := by
  induction ps with
  | nil => intro i name _; simp [join_loop, joinRest]
  | cons p ps ih =>
    intro i name hi
    have hi' : (i == 0) = false := by
      cases i with
      | zero => exact absurd rfl hi
      | succ n => rfl
    simp [join_loop, joinRest, hi', ih (i + 1) _ (Nat.succ_ne_zero i), String.append_assoc]

theorem join_loop_zero (ps : List String) :
    join_loop 0 "" ps = match ps with
      | [] => ""
      | p :: ps => p ++ joinRest ps := by
  cases ps with
  | nil => rfl
  | cons p ps =>
    have := join_loop_pos ps 1 ("" ++ "" ++ p) (by decide)
    simpa [join_loop] using this

/-! ## `auto_name` and its default tables -/

/-- `DEFAULT_SKIP_KEY` of `exp_util.py`. -/
def DEFAULT_SKIP_KEY : List String :=
  ["task", "reward_threshold", "logdir", "worker", "project", "group", "name", "prefix",
   "suffix", "save_interval", "render", "verbose", "save_ckpt", "training_num",
   "testing_num", "epoch", "device", "thread"]

/-- `DEFAULT_KEY_ABBRE` of `exp_util.py`. -/
def DEFAULT_KEY_ABBRE : List (String × String) :=
  [("cost_limit", "cost"),
   ("mstep_iter_num", "mnum"),
   ("estep_iter_num", "enum"),
   ("estep_kl", "ekl"),
   ("mstep_kl_mu", "kl_mu"),
   ("mstep_kl_std", "kl_std"),
   ("mstep_dual_lr", "mlr"),
   ("estep_dual_lr", "elr"),
   ("update_per_step", "update")]

/-- Python `d[k]`: the value when the key is present, a `KeyError` (modelled
as `Except.error` carrying the key) when it is absent. -/
def pyGetItem (d : List (String × Value)) (k : String) : Except String Value :=
  match assocGet d k with
  | some v => Except.ok v
  | none => Except.error ("KeyError: " ++ k)

/-- The `for i, k in enumerate(sorted(default_cfg.keys()))` loop of
`auto_name`.  For each key, Python first evaluates
`default_cfg[k] == current_cfg[k]` (so both lookups happen before the
`k in skip_keys` test), skips equal or skipped keys, and otherwise appends
`prefix + k + value` to `name`, with `k` replaced by its abbreviation when
`key_abbre` has one and `prefix` being `"_"` exactly when `name` is
nonempty. -/
def auto_name_loop (default_cfg current_cfg : List (String × Value))
    (skip_keys : List String) (key_abbre : List (String × String)) :
    List String → String → Except String String
  | [], name => Except.ok name
  | k :: ks, name =>
    match pyGetItem default_cfg k with
    | Except.error e => Except.error e
    | Except.ok dv =>
      match pyGetItem current_cfg k with
      | Except.error e => Except.error e
      | Except.ok cv =>
        if dv = cv ∨ k ∈ skip_keys then
          auto_name_loop default_cfg current_cfg skip_keys key_abbre ks name
        else
          auto_name_loop default_cfg current_cfg skip_keys key_abbre ks
            (name ++ (if name.length = 0 then "" else "_") ++
              (match assocGet key_abbre k with
               | some ab => ab
               | none => k) ++ to_string cv)

/-- `auto_name` of `exp_util.py`.  `pre` is the `prefix` parameter (the
initial value of `name`); `uuid4` stands for `str(uuid.uuid4())`, whose
first four characters are appended after a dash.  A `KeyError` escaping
the comparison loop propagates to the caller. -/
def auto_name (default_cfg current_cfg : List (String × Value))
    (pre suffix : String) (skip_keys : List String)
    (key_abbre : List (String × String)) (uuid4 : String) : Except String String :=
  match auto_name_loop default_cfg current_cfg skip_keys key_abbre
      (sortStr (default_cfg.map Prod.fst)) pre with
  | Except.error e => Except.error e
  | Except.ok name =>
    let name := if suffix.length = 0 then name
      else (if name.length = 0 then suffix else name ++ "_" ++ suffix)
    let name := if name.length = 0 then "default" else name
    Except.ok (name ++ "-" ++ String.mk (uuid4.data.take 4))

/-! ## `seed_all`: the best-effort loop over `others`

The global seeding of `random`, `numpy` and `torch` is a side effect on
the interpreter with no return value; the part of `seed_all` the claims
are about is the `try: for item in others: ... except: pass` loop, which
is modelled on its observable trace: which items had their `seed` method
called successfully.  An item is abstracted by whether it has a `seed`
attribute and whether calling `item.seed(seed)` raises. -/

structure SeedItem where
  has_seed : Bool
  seed_fails : Bool
deriving DecidableEq

/-- The `for item in others` loop, starting at index `i`: returns the
indices of the items whose `seed` call completed, and whether an exception
aborted the loop.  A raising `seed` call ends the loop at once. -/
def seed_loop : Nat → List SeedItem → List Nat × Bool
  | _, [] => ([], false)
  | i, item :: rest =>
    if item.has_seed then
      if item.seed_fails then ([], true)
      else
        let r := seed_loop (i + 1) rest
        (i :: r.1, r.2)
    else seed_loop (i + 1) rest

/-- The `others`-seeding part of `seed_all` for a collection: the whole
loop sits in a `try ... except: pass`, so the exception flag is swallowed
and the function always returns normally; the value is the list of indices
of the items that actually got seeded. -/
def seed_all_others (others : List SeedItem) : List Nat :=
  (seed_loop 0 others).1

/-! ## `load_config_and_model` -/

/-- A single apostrophe, used in the nonexistent-path error message. -/
def apos : String := String.singleton (Char.ofNat 39)

/-- `os.path.join` for a relative second component: a separator is
inserted unless the first component is empty or already ends in one. -/
def osp_join (a b : String) : String :=
  if a = "" then b else if a.data.getLast? = some '/' then a ++ b else a ++ "/" ++ b

/-- The `ValueError` message raised for a nonexistent path. -/
def doesnt_exist_msg (path : String) : String :=
  path ++ " doesn" ++ apos ++ "t exist!"

deriving instance DecidableEq for Except

/-- Observable behaviour of `load_config_and_model`: the files it opens
(in order) and its outcome — the `(config_file, model_path)` pair it reads
from, or the `ValueError` message. -/
structure LoadResult where
  opened : List String
  outcome : Except String (String × String)
deriving DecidableEq

/-- `load_config_and_model(path, best, epoch_model_number)`.  The
filesystem is abstracted by the `path_exists` predicate used for
`osp.exists(path)`.  The model file is first chosen from
`epoch_model_number` (`model_epoch-<N>.pt` if given, else `model.pt`) and
then overridden to `model_best.pt` whenever `best` is true. -/
def load_config_and_model (path_exists : String → Bool) (path : String)
    (best : Bool) (epoch_model_number : Option Int) : LoadResult :=
  if path_exists path then
    let config_file := osp_join path "config.yaml"
    let model_file := match epoch_model_number with
      | some n => "model_epoch-" ++ toString n ++ ".pt"
      | none => "model.pt"
    let model_file := if best then "model_best.pt" else model_file
    let model_path := osp_join path ("checkpoint/" ++ model_file)
    { opened := [config_file, model_path],
      outcome := Except.ok (config_file, model_path) }
  else
    { opened := [], outcome := Except.error (doesnt_exist_msg path) }

/-- The checkpoint-file priority as the code realises it: the `best` flag
first, then the explicit epoch number, then the default `model.pt`. -/
def code_model_file (best : Bool) (epoch_model_number : Option Int) : String :=
  if best then "model_best.pt"
  else match epoch_model_number with
    | some n => "model_epoch-" ++ toString n ++ ".pt"
    | none => "model.pt"

/-! ## `load_environment` -/

/-- The distinct failure modes of `load_environment`: the `ValueError`
for a missing `id` key, the re-raised `UnregisteredEnv`, and a Python
`KeyError` escaping the `UnregisteredEnv` handler. -/
inductive LoadEnvError where
  | valueError (msg : String)
  | keyError (key : String)
  | unregisteredEnv (msg : String)
deriving DecidableEq

/-- The `UnregisteredEnv` message built by the handler for identifier
`idv` (the `format` rendering of the id, which for
the string-typed ids `gym.make` accepts is the string itself). -/
def unregistered_env_msg (idv : Value) : String :=
  "Environment " ++ to_string idv ++ " not registered. The environment module " ++
    "should be specified by the \"import_module\" key of the environment configuration"

/-- `load_environment(env_config)` for an already-parsed configuration
dict.  `registry` is the set of ids registered with `gym` at the time
`gym.make` runs (after the optional `__import__` side effect).  A missing
`id` key raises `KeyError`, caught and turned into the `ValueError`; an
unregistered id raises `UnregisteredEnv`, whose handler first evaluates
`env_config["import_module"]` — a lookup that itself raises `KeyError`
(not caught by the sibling handler) when that key is absent — before
re-raising `UnregisteredEnv` with the import-module hint. -/
def load_environment (registry : List Value) (env_config : List (String × Value)) :
    Except LoadEnvError Value :=
  match assocGet env_config "id" with
  | none => Except.error (.valueError "The gym register-id of the environment must be provided")
  | some idv =>
    if idv ∈ registry then
      Except.ok idv
    else
      match assocGet env_config "import_module" with
      | none => Except.error (.keyError "import_module")
      | some _ => Except.error (.unregisteredEnv (unregistered_env_msg idv))

/-- Whether an outcome of `load_environment` is an `UnregisteredEnv`
error (of any message). -/
def isUnregisteredEnvError : Except LoadEnvError Value → Bool
  | .error (.unregisteredEnv _) => true
  | _ => false

/-! ## Supporting lemmas -/

theorem mem_of_mem_sortStr {k : String} {l : List String} (h : k ∈ sortStr l) : k ∈ l :=
  (List.perm_insertionSort _ l).subset h

theorem mem_sortStr_of_mem {k : String} {l : List String} (h : k ∈ l) : k ∈ sortStr l :=
  (List.perm_insertionSort _ l).symm.subset h

theorem assocGet_cons (p : String × Value) (l : List (String × Value)) (k : String) :
    assocGet (p :: l) k = if p.1 = k then some p.2 else assocGet l k := by
  by_cases hk : p.1 = k
  · have hpos : (fun q : String × Value => q.1 == k) p = true := by simpa using hk
    simp [assocGet, List.find?_cons_of_pos _ hpos, hk]
  · have hneg : ¬ (fun q : String × Value => q.1 == k) p = true := by simpa using hk
    simp [assocGet, List.find?_cons_of_neg _ hneg, hk]

theorem assocGet_of_mem_keys {l : List (String × Value)} {k : String}
    (h : k ∈ l.map Prod.fst) : ∃ v, assocGet l k = some v := by
  induction l with
  | nil => simp at h
  | cons p l ih =>
    by_cases hk : p.1 = k
    · exact ⟨p.2, by simp [assocGet_cons, hk]⟩
    · have hmem : k ∈ l.map Prod.fst := by
        rw [List.map_cons, List.mem_cons] at h
        rcases h with h1 | h1
        · exact absurd h1.symm hk
        · exact h1
      obtain ⟨v, hv⟩ := ih hmem
      exact ⟨v, by simp [assocGet_cons, hk, hv]⟩

theorem auto_name_loop_all_equal (cfg : List (String × Value))
    (skip_keys : List String) (key_abbre : List (String × String)) :
    ∀ (ks : List String) (name : String), (∀ k ∈ ks, k ∈ cfg.map Prod.fst) →
      auto_name_loop cfg cfg skip_keys key_abbre ks name = Except.ok name := by
  intro ks
  induction ks with
  | nil => intro name _; rfl
  | cons k ks ih =>
    intro name hmem
    obtain ⟨v, hv⟩ := assocGet_of_mem_keys (hmem k (List.mem_cons_self k ks))
    have hrec := ih name (fun k' hk' => hmem k' (List.mem_cons_of_mem _ hk'))
    simp [auto_name_loop, pyGetItem, hv, hrec]

theorem auto_name_loop_error (default_cfg current_cfg : List (String × Value))
    (skip_keys : List String) (key_abbre : List (String × String)) :
    ∀ (ks : List String) (name : String) (k : String), k ∈ ks →
      assocGet current_cfg k = none →
      ∃ e, auto_name_loop default_cfg current_cfg skip_keys key_abbre ks name =
        Except.error e := by
  intro ks
  induction ks with
  | nil => intro name k h _; simp at h
  | cons k' ks ih =>
    intro name k hk hmiss
    rcases hd : assocGet default_cfg k' with _ | dv
    · exact ⟨"KeyError: " ++ k', by simp [auto_name_loop, pyGetItem, hd]⟩
    · rcases hc : assocGet current_cfg k' with _ | cv
      · exact ⟨"KeyError: " ++ k', by simp [auto_name_loop, pyGetItem, hd, hc]⟩
      · have hk2 : k ∈ ks := by
          rcases List.mem_cons.mp hk with rfl | h
          · rw [hmiss] at hc; cases hc
          · exact h
        by_cases hif : dv = cv ∨ k' ∈ skip_keys
        · obtain ⟨e, he⟩ := ih name k hk2 hmiss
          exact ⟨e, by simp [auto_name_loop, pyGetItem, hd, hc, hif, he]⟩
        · obtain ⟨e, he⟩ := ih (name ++ (if name.length = 0 then "" else "_") ++
            (match assocGet key_abbre k' with
             | some ab => ab
             | none => k') ++ to_string cv) k hk2 hmiss
          refine ⟨e, ?_⟩
          simp only [auto_name_loop, pyGetItem, hd, hc]
          rw [if_neg hif]
          exact he

theorem render_pairs_keys (kvs : List (String × Value)) :
    (render_pairs kvs).map Prod.fst = kvs.map Prod.fst := by
  induction kvs with
  | nil => rfl
  | cons p kvs ih => cases p; simp [render_pairs, ih]

theorem sorted_keyLe_nodup_perm_eq :
    ∀ (l1 l2 : List (String × String)), l1.Perm l2 → (l1.map Prod.fst).Nodup →
      l1.Sorted keyLe → l2.Sorted keyLe → l1 = l2 := by
  intro l1
  induction l1 with
  | nil => intro l2 hp _ _ _; exact hp.nil_eq
  | cons a t1 ih =>
    intro l2 hp hnd hs1 hs2
    cases l2 with
    | nil => cases hp.symm.nil_eq
    | cons b t2 =>
      have hab : a = b := by
        by_contra hne
        have ha2 : a ∈ b :: t2 := hp.subset (List.mem_cons_self a t1)
        have hb1 : b ∈ a :: t1 := hp.symm.subset (List.mem_cons_self b t2)
        rcases List.mem_cons.mp ha2 with h | ha2'
        · exact hne h
        rcases List.mem_cons.mp hb1 with h | hb1'
        · exact hne h.symm
        have h1 : keyLe a b := (List.sorted_cons.mp hs1).1 b hb1'
        have h2 : keyLe b a := (List.sorted_cons.mp hs2).1 a ha2'
        have hkey : a.1 = b.1 := le_antisymm h1 h2
        have hnot : a.1 ∉ t1.map Prod.fst := by
          rw [List.map_cons, List.nodup_cons] at hnd
          exact hnd.1
        exact hnot (hkey ▸ List.mem_map_of_mem Prod.fst hb1')
      subst hab
      have hnd' : (t1.map Prod.fst).Nodup := by
        rw [List.map_cons, List.nodup_cons] at hnd
        exact hnd.2
      have ht : t1 = t2 :=
        ih t2 hp.cons_inv hnd' (List.sorted_cons.mp hs1).2 (List.sorted_cons.mp hs2).2
      rw [ht]

theorem joinRest_go :
    ∀ (ps : List String) (acc : String),
      String.intercalate.go acc "_" ps = acc ++ joinRest ps := by
  intro ps
  induction ps with
  | nil => intro acc; simp [String.intercalate.go, joinRest]
  | cons p ps ih =>
    intro acc
    rw [String.intercalate.go, ih (acc ++ "_" ++ p)]
    simp [joinRest, String.append_assoc]

theorem join_loop_intercalate (ps : List String) :
    join_loop 0 "" ps = String.intercalate "_" ps := by
  cases ps with
  | nil => rfl
  | cons p ps =>
    rw [join_loop_zero, String.intercalate, joinRest_go]

theorem seed_loop_append_fail (bad : SeedItem) (post : List SeedItem)
    (hs : bad.has_seed = true) (hf : bad.seed_fails = true) :
    ∀ (pre : List SeedItem) (i : Nat),
      (∀ it ∈ pre, it.has_seed = true → it.seed_fails = false) →
      seed_loop i (pre ++ bad :: post) = ((seed_loop i pre).1, true) := by
  intro pre
  induction pre with
  | nil => intro i _; simp [seed_loop, hs, hf]
  | cons it pre ih =>
    intro i hpre
    have hrec := ih (i + 1) (fun x hx h => hpre x (List.mem_cons_of_mem _ hx) h)
    cases hseed : it.has_seed with
    | false => simpa [seed_loop, hseed] using hrec
    | true =>
      have hfail : it.seed_fails = false := hpre it (List.mem_cons_self it pre) hseed
      simp [seed_loop, hseed, hfail, hrec]

theorem seed_loop_indices_lt :
    ∀ (l : List SeedItem) (i j : Nat), j ∈ (seed_loop i l).1 → j < i + l.length := by
  intro l
  induction l with
  | nil => intro i j h; simp [seed_loop] at h
  | cons it l ih =>
    intro i j h
    cases hseed : it.has_seed with
    | false =>
      have := ih (i + 1) j (by simpa [seed_loop, hseed] using h)
      simpa [Nat.add_comm, Nat.add_left_comm] using this
    | true =>
      cases hfail : it.seed_fails with
      | true => simp [seed_loop, hseed, hfail] at h
      | false =>
        rw [seed_loop] at h
        simp only [hseed, hfail, if_true, if_false, Bool.false_eq_true] at h
        rcases List.mem_cons.mp h with rfl | h2
        · simp [Nat.lt_add_of_pos_right]
        · have := ih (i + 1) j h2
          simpa [Nat.add_comm, Nat.add_left_comm] using this

/-! ## Claims -/

/-- C1 (counterexample): when both an epoch number and `best=True` are given,
`load_config_and_model` loads `model_best.pt`, not the epoch-specific file —
the claimed priority "explicit epoch number over the best flag" fails. -/
theorem c1_counterexample :
    (load_config_and_model (fun _ => true) "d" true (some 5)).opened =
      ["d/config.yaml", "d/checkpoint/model_best.pt"] ∧
    ("d/checkpoint/model_best.pt" : String) ≠ "d/checkpoint/model_epoch-5.pt" := by
  exact ⟨by decide, by decide⟩

/-- C1 (amended): on an existing path the checkpoint file is chosen by the
priority best flag > explicit epoch number > default `model.pt`; in
particular when both an epoch number and `best=True` are given, the
`model_best.pt` file is loaded. -/
theorem c1_model_file_priority (path_exists : String → Bool) (path : String)
    (best : Bool) (epoch_model_number : Option Int) (h : path_exists path = true) :
    load_config_and_model path_exists path best epoch_model_number =
      { opened := [osp_join path "config.yaml",
                   osp_join path ("checkpoint/" ++ code_model_file best epoch_model_number)],
        outcome := Except.ok (osp_join path "config.yaml",
                   osp_join path ("checkpoint/" ++ code_model_file best epoch_model_number)) } := by
  cases best <;> cases epoch_model_number <;>
    simp [load_config_and_model, code_model_file, h]

/-- C1 (witness): the amended priority at `best=True`, epoch 5, on an
existing directory. -/
theorem c1_model_file_priority_witness :
    load_config_and_model (fun _ => true) "d" true (some 5) =
      { opened := [osp_join "d" "config.yaml",
                   osp_join "d" ("checkpoint/" ++ code_model_file true (some 5))],
        outcome := Except.ok (osp_join "d" "config.yaml",
                   osp_join "d" ("checkpoint/" ++ code_model_file true (some 5))) } :=
  c1_model_file_priority (fun _ => true) "d" true (some 5) rfl

/-- C2 (counterexample): in `[fail, good]` the `seed` call of the first item
raises, and the second item — although it has a `seed` method — is never
seeded: the surviving loop does not reach it, refuting "the remaining items
of the collection are still seeded". -/
theorem c2_counterexample :
    seed_all_others [⟨true, true⟩, ⟨true, false⟩] = [] ∧
    (⟨true, false⟩ : SeedItem).has_seed = true ∧
    1 ∉ seed_all_others [⟨true, true⟩, ⟨true, false⟩] := by
  decide

/-- C2 (amended): a failure raised while seeding one item of the collection
is caught and ignored — `seed_all` still returns normally — but it aborts
the whole loop: the items after the failing one are not seeded (the result
on `pre ++ bad :: post` is exactly the result on `pre`, and every seeded
index lies in `pre`). -/
theorem c2_seed_failure_aborts_rest (pre post : List SeedItem) (bad : SeedItem)
    (hs : bad.has_seed = true) (hf : bad.seed_fails = true)
    (hpre : ∀ it ∈ pre, it.has_seed = true → it.seed_fails = false) :
    seed_all_others (pre ++ bad :: post) = seed_all_others pre ∧
    ∀ j ∈ seed_all_others (pre ++ bad :: post), j < pre.length := by
  have hloop := seed_loop_append_fail bad post hs hf pre 0 hpre
  constructor
  · simp [seed_all_others, hloop]
  · intro j hj
    rw [seed_all_others, hloop] at hj
    simpa using seed_loop_indices_lt pre 0 j hj

/-- C2 (witness): the amended statement at a concrete list: one good item,
then a failing one, then another good one. -/
theorem c2_seed_failure_aborts_rest_witness :
    seed_all_others ([⟨true, false⟩] ++ ⟨true, true⟩ :: [⟨true, false⟩]) =
      seed_all_others [⟨true, false⟩] ∧
    ∀ j ∈ seed_all_others ([⟨true, false⟩] ++ ⟨true, true⟩ :: [⟨true, false⟩]),
      j < [(⟨true, false⟩ : SeedItem)].length :=
  c2_seed_failure_aborts_rest [⟨true, false⟩] [⟨true, false⟩] ⟨true, true⟩ rfl rfl
    (by decide)

/-- C3 (counterexample): `to_string([1, 2, 3])` is `"1_2_3"`, not the
claimed `"123"` — the elements are joined with an underscore separator. -/
theorem c3_counterexample :
    to_string (Value.list [Value.int 1, Value.int 2, Value.int 3]) = "1_2_3" ∧
    to_string (Value.list [Value.int 1, Value.int 2, Value.int 3]) ≠ "123" := by
  exact ⟨rfl, by decide⟩

/-- C3 (amended): for every non-string sequence, `to_string` concatenates
the string forms of the elements in order with an underscore separator
between consecutive elements; `to_string([1,2,3])` is `"1_2_3"`. -/
theorem c3_to_string_list (vs : List Value) :
    to_string (Value.list vs) = String.intercalate "_" (vs.map to_string) := by
  rw [to_string, render_list_eq_map, join_loop_intercalate]

/-- C4 (counterexample): for an unregistered id in a configuration without
an `import_module` field, the error that escapes `load_environment` is the
`KeyError` raised by the `import_module` lookup inside the handler,
not an `UnregisteredEnv` error. -/
theorem c4_counterexample :
    load_environment [] [("id", Value.str "MyEnv-v0")] =
      Except.error (LoadEnvError.keyError "import_module") ∧
    isUnregisteredEnvError (load_environment [] [("id", Value.str "MyEnv-v0")]) = false := by
  decide

/-- C4 (amended): for an unregistered id, when the configuration contains
an `import_module` field the raised error is the distinct
`UnregisteredEnv` error whose message names the `"import_module"`
configuration key; when the configuration lacks that field, a `KeyError`
for `"import_module"` escapes instead. -/
theorem c4_unregistered_env_hint (registry : List Value)
    (env_config : List (String × Value)) (idv : Value)
    (hid : assocGet env_config "id" = some idv) (hreg : idv ∉ registry) :
    (∀ m, assocGet env_config "import_module" = some m →
      ∃ a b, load_environment registry env_config =
        Except.error (LoadEnvError.unregisteredEnv (a ++ "import_module" ++ b))) ∧
    (assocGet env_config "import_module" = none →
      load_environment registry env_config =
        Except.error (LoadEnvError.keyError "import_module")) := by
  constructor
  · intro m hm
    refine ⟨"Environment " ++ to_string idv ++
      " not registered. The environment module should be specified by the \"",
      "\" key of the environment configuration", ?_⟩
    simp only [load_environment, hid, hreg, hm, if_neg hreg]
    rw [unregistered_env_msg]
    simp [String.append_assoc]
  · intro hnone
    simp [load_environment, hid, hreg, hnone]

/-- C4 (witness): the amended statement at a concrete unregistered id,
once with the `import_module` field and once without it. -/
theorem c4_unregistered_env_hint_witness :
    (∃ a b, load_environment [] [("id", Value.str "E-v0"), ("import_module", Value.str "m")] =
      Except.error (LoadEnvError.unregisteredEnv (a ++ "import_module" ++ b))) ∧
    load_environment [] [("id", Value.str "E-v0")] =
      Except.error (LoadEnvError.keyError "import_module") :=
  ⟨(c4_unregistered_env_hint [] [("id", Value.str "E-v0"), ("import_module", Value.str "m")]
      (Value.str "E-v0") rfl (by decide)).1 (Value.str "m") rfl,
   (c4_unregistered_env_hint [] [("id", Value.str "E-v0")]
      (Value.str "E-v0") rfl (by decide)).2 rfl⟩

/-- C5: for a nonexistent path, `load_config_and_model` raises the
descriptive `ValueError` naming the path and opens no file; for an
existing path it returns normally, so no such error is raised. -/
theorem c5_nonexistent_path (path_exists : String → Bool) (path : String)
    (best : Bool) (epoch_model_number : Option Int) :
    (path_exists path = false →
      load_config_and_model path_exists path best epoch_model_number =
        { opened := [], outcome := Except.error (doesnt_exist_msg path) }) ∧
    (path_exists path = true →
      ∃ pr, (load_config_and_model path_exists path best epoch_model_number).outcome =
        Except.ok pr) := by
  constructor
  · intro h
    simp [load_config_and_model, h]
  · intro h
    simp only [load_config_and_model, h, if_true]
    exact ⟨_, rfl⟩

/-- C5 (witness): on a filesystem where only `"d"` exists, the call on
`"x"` raises the descriptive error with no file opened, and the call on
`"d"` returns normally. -/
theorem c5_nonexistent_path_witness :
    load_config_and_model (fun s => s == "d") "x" false none =
      { opened := [], outcome := Except.error (doesnt_exist_msg "x") } ∧
    ∃ pr, (load_config_and_model (fun s => s == "d") "d" false none).outcome =
      Except.ok pr :=
  ⟨(c5_nonexistent_path (fun s => s == "d") "x" false none).1 (by decide),
   (c5_nonexistent_path (fun s => s == "d") "d" false none).2 (by decide)⟩

/-- C6: a configuration lacking the `"id"` key makes `load_environment`
raise the descriptive error that the gym register-id must be provided. -/
theorem c6_missing_id_value_error (registry : List Value)
    (env_config : List (String × Value)) (h : assocGet env_config "id" = none) :
    load_environment registry env_config =
      Except.error (LoadEnvError.valueError
        "The gym register-id of the environment must be provided") := by
  simp [load_environment, h]

/-- C6 (witness): the empty configuration lacks `"id"`. -/
theorem c6_missing_id_value_error_witness :
    load_environment [] [] =
      Except.error (LoadEnvError.valueError
        "The gym register-id of the environment must be provided") :=
  c6_missing_id_value_error [] [] rfl

/-- C7: with identical default and current configurations (and default
prefix and suffix), `auto_name` returns `"default-"` followed by exactly a
4-character suffix (`str(uuid.uuid4())` always has 36 ≥ 4 characters). -/
theorem c7_auto_name_default (cfg : List (String × Value)) (uuid4 : String)
    (h4 : 4 ≤ uuid4.length) :
    ∃ s, auto_name cfg cfg "" "" DEFAULT_SKIP_KEY DEFAULT_KEY_ABBRE uuid4 =
      Except.ok ("default-" ++ s) ∧ s.length = 4 := by
  refine ⟨String.mk (uuid4.data.take 4), ?_, ?_⟩
  · have hloop := auto_name_loop_all_equal cfg DEFAULT_SKIP_KEY DEFAULT_KEY_ABBRE
      (sortStr (cfg.map Prod.fst)) "" (fun k hk => mem_of_mem_sortStr hk)
    unfold auto_name
    rw [hloop]
    rfl
  · have hlen : (String.mk (uuid4.data.take 4)).length = min 4 uuid4.data.length := by
      show (uuid4.data.take 4).length = min 4 uuid4.data.length
      exact List.length_take 4 uuid4.data
    rw [hlen]
    exact Nat.min_eq_left h4

/-- C7 (witness): identical one-entry configurations with a 8-character
uuid string. -/
theorem c7_auto_name_default_witness :
    ∃ s, auto_name [("a", Value.int 1)] [("a", Value.int 1)] "" "" DEFAULT_SKIP_KEY
      DEFAULT_KEY_ABBRE "abcdefgh" = Except.ok ("default-" ++ s) ∧ s.length = 4 :=
  c7_auto_name_default [("a", Value.int 1)] "abcdefgh" (by decide)

/-- C8: `auto_name` on current `{"cost_limit": 5}` against default
`{"cost_limit": 1}` (default prefix, suffix, skip list and abbreviation
table) returns a name containing `"cost5"`: the key is abbreviated to
`"cost"` by `DEFAULT_KEY_ABBRE` and followed by the value `"5"`. -/
theorem c8_auto_name_cost5 (uuid4 : String) :
    ∃ rest, auto_name [("cost_limit", Value.int 1)] [("cost_limit", Value.int 5)] "" ""
      DEFAULT_SKIP_KEY DEFAULT_KEY_ABBRE uuid4 = Except.ok ("cost5" ++ rest) :=
  ⟨"-" ++ String.mk (uuid4.data.take 4), rfl⟩

/-- C9: `to_string` on mappings holding the same key-value associations in
different orders (keys of a Python dict are unique) yields the same
string: it renders values in sorted-key order. -/
theorem c9_to_string_dict_perm (kvs1 kvs2 : List (String × Value))
    (hperm : kvs1.Perm kvs2) (hnd : (kvs1.map Prod.fst).Nodup) :
    to_string (Value.dict kvs1) = to_string (Value.dict kvs2) := by
  have hr : (render_pairs kvs1).Perm (render_pairs kvs2) := by
    rw [render_pairs_eq_map, render_pairs_eq_map]
    exact hperm.map _
  have hnd1 : ((render_pairs kvs1).map Prod.fst).Nodup := by
    rw [render_pairs_keys]; exact hnd
  have hsorted1 : (sortPairsStr (render_pairs kvs1)).Sorted keyLe :=
    List.sorted_insertionSort keyLe _
  have hsorted2 : (sortPairsStr (render_pairs kvs2)).Sorted keyLe :=
    List.sorted_insertionSort keyLe _
  have hp : (sortPairsStr (render_pairs kvs1)).Perm (sortPairsStr (render_pairs kvs2)) :=
    ((List.perm_insertionSort keyLe _).trans hr).trans
      (List.perm_insertionSort keyLe _).symm
  have hnds : ((sortPairsStr (render_pairs kvs1)).map Prod.fst).Nodup :=
    ((List.perm_insertionSort keyLe (render_pairs kvs1)).map Prod.fst).nodup_iff.mpr hnd1
  have heq : sortPairsStr (render_pairs kvs1) = sortPairsStr (render_pairs kvs2) :=
    sorted_keyLe_nodup_perm_eq _ _ hp hnds hsorted1 hsorted2
  rw [to_string, to_string, heq]

/-- C9 (witness): `to_string({"b": 2, "a": 1}) = to_string({"a": 1, "b": 2})`. -/
theorem c9_to_string_dict_perm_witness :
    to_string (Value.dict [("b", Value.int 2), ("a", Value.int 1)]) =
      to_string (Value.dict [("a", Value.int 1), ("b", Value.int 2)]) :=
  c9_to_string_dict_perm _ _
    (List.Perm.swap ("a", Value.int 1) ("b", Value.int 2) []) (by decide)

/-- C10: when some key of `default_cfg` is absent from `current_cfg`,
`auto_name` raises a `KeyError` instead of returning a name — the
comparison `default_cfg[k] == current_cfg[k]` is evaluated before the
`k in skip_keys` test, so this happens even for keys in `skip_keys`. -/
theorem c10_missing_key_error (default_cfg current_cfg : List (String × Value))
    (pre suffix : String) (skip_keys : List String)
    (key_abbre : List (String × String)) (uuid4 : String) (k : String)
    (hk : k ∈ default_cfg.map Prod.fst) (hmiss : assocGet current_cfg k = none) :
    ∃ e, auto_name default_cfg current_cfg pre suffix skip_keys key_abbre uuid4 =
      Except.error e := by
  obtain ⟨e, he⟩ := auto_name_loop_error default_cfg current_cfg skip_keys key_abbre
    (sortStr (default_cfg.map Prod.fst)) pre k (mem_sortStr_of_mem hk) hmiss
  exact ⟨e, by simp [auto_name, he]⟩

/-- C10 (witness): the key `"task"` — which is in `DEFAULT_SKIP_KEY` — is
present in the default configuration but absent from the current one, and
`auto_name` still raises the `KeyError` rather than skipping it. -/
theorem c10_missing_key_error_witness :
    ∃ e, auto_name [("task", Value.int 1)] [] "" "" DEFAULT_SKIP_KEY DEFAULT_KEY_ABBRE
      "abcdefgh" = Except.error e :=
  c10_missing_key_error [("task", Value.int 1)] [] "" "" DEFAULT_SKIP_KEY
    DEFAULT_KEY_ABBRE "abcdefgh" "task" (by decide) rfl
